import Mathlib

/-!
Verification development for the Remote Upgrade Orchestrator of the `dsc` CLI.

The repository contains two coexisting iterations of the orchestrator:

* the current one in `src/commands/update.rs` (`run_update`, `update_all`,
  `validate_ssh_target`, `parse_reclaimed_space`, `build_changelog_payload`, ...), and
* an older inline copy in `src/main.rs` (its own `run_update`, `update_all`,
  `post_changelog_update`), which the binary's `Update` subcommand dispatches to.

Both are embedded below.  External effects (remote ssh commands, HTTP version fetches,
probes, sleeps) are modelled by an environment record holding the result each external
call would produce, plus an event trace recording which steps the code performs.
Machine-level details (process spawning, terminal spinners) are not modelled; the
control flow, state mutation and string processing are translated statement by
statement from the Rust source.
-/

namespace Dsc

/-! ### Rust string primitives, mirrored on `List Char` -/

/-- The set of characters Rust's `char::is_whitespace` accepts (Unicode `White_Space`).
Used by `str::trim` and `char::is_whitespace` in `validate_ssh_target`. -/
def rustIsWhitespace (c : Char) : Bool :=
  ('\u0009' ≤ c && c ≤ '\u000D') || c = '\u0020' || c = '\u0085' || c = '\u00A0' ||
  c = '\u1680' || ('\u2000' ≤ c && c ≤ '\u200A') || c = '\u2028' || c = '\u2029' ||
  c = '\u202F' || c = '\u205F' || c = '\u3000'

/-- Rust `str::trim` on a character list: strip whitespace from both ends. -/
def trimL (s : List Char) : List Char :=
  ((s.dropWhile rustIsWhitespace).reverse.dropWhile rustIsWhitespace).reverse

/-- Rust `str::trim` on strings. -/
def rustTrim (s : String) : String :=
  String.mk (trimL s.data)

/-- Rust `str::starts_with` on string slices, written out so proofs can unfold it one
character at a time. -/
def isPrefixOfL : List Char → List Char → Bool
  | [], _ => true
  | _ :: _, [] => false
  | a :: as, b :: bs => a == b && isPrefixOfL as bs

/-- Substring occurrence test: does `pat` occur contiguously anywhere in `s`?
(`s.contains(pat)` in Rust.) -/
def occursIn (pat : List Char) : List Char → Bool
  | [] => pat.isEmpty
  | c :: rest => isPrefixOfL pat (c :: rest) || occursIn pat rest

/-- Rust `str::split(pat)` (non-overlapping, leftmost-first), with explicit fuel so the
definition is structurally recursive and kernel-computable.  With `fuel > s.length` the
fuel never runs out. -/
def splitOnFuel (sep : List Char) : Nat → List Char → List (List Char)
  | 0, s => [s]
  | fuel + 1, s =>
    match s with
    | [] => [[]]
    | c :: rest =>
      if !sep.isEmpty && isPrefixOfL sep (c :: rest) then
        [] :: splitOnFuel sep fuel ((c :: rest).drop sep.length)
      else
        match splitOnFuel sep fuel rest with
        | [] => [[c]]
        | p :: ps => (c :: p) :: ps

/-- Rust `str::split(sep)` as a list of pieces. -/
def splitOnL (sep s : List Char) : List (List Char) :=
  splitOnFuel sep (s.length + 1) s

/-- Strip one trailing carriage return, as Rust `str::lines` does per line. -/
def stripTrailingCr (l : List Char) : List Char :=
  if l.getLast? = some '\r' then l.dropLast else l

/-- Rust `str::lines`: split at `'\n'`, the final line ending being optional, and strip a
trailing `'\r'` from each line. -/
def linesL (s : List Char) : List (List Char) :=
  if s = [] then []
  else
    let parts := splitOnL ['\n'] s
    let parts := if parts.getLast? = some [] then parts.dropLast else parts
    parts.map stripTrailingCr

/-- The literal marker `parse_reclaimed_space` looks for
(src/commands/update.rs:468 and src/main.rs:717). -/
def markerL : List Char := "Total reclaimed space:".data

/-- `parse_reclaimed_space` (src/commands/update.rs:465-470, identical copy at
src/main.rs:714-719):

    output.lines().find_map(|line| line.split("Total reclaimed space:").nth(1))
        .map(|value| value.trim().to_string())
-/
def parse_reclaimed_space (output : String) : Option String :=
  ((linesL output.data).findSome? fun line => (splitOnL markerL line)[1]?).map
    fun value => String.mk (trimL value)

/-- `validate_ssh_target` (src/commands/update.rs:423-435).  The target is trimmed, then
rejected if empty, starting with `'-'`, or containing whitespace. -/
def validate_ssh_target (target : String) : Except String Unit :=
  let trimmed := trimL target.data
  if trimmed.isEmpty then
    Except.error "ssh target is empty"
  else if trimmed.head? = some '-' then
    Except.error "ssh target cannot start with a dash"
  else if trimmed.any rustIsWhitespace then
    Except.error "ssh target cannot contain whitespace"
  else
    Except.ok ()

/-- An ssh invocation: the program and its argument list. -/
structure SshInvocation where
  program : String
  args : List String
deriving DecidableEq

/-- `build_ssh_command` (src/commands/update.rs:392-410): validates the target FIRST
(`validate_ssh_target(target)?`) and only then constructs the invocation, so an invalid
target yields an error before any process could be spawned.  `strictOpt` models the
result of `ssh_strict_host_key_checking()`, `sshOptions` the whitespace-split words of
`DSC_SSH_OPTIONS` (empty list when unset or blank). -/
def build_ssh_command (strictOpt : Option String) (extraOptions : List String)
    (sshOptions : List String) (target : String) : Except String SshInvocation :=
  match validate_ssh_target target with
  | Except.error e => Except.error e
  | Except.ok _ =>
    Except.ok
      { program := "ssh"
        args :=
          ["-o", "BatchMode=yes"] ++
          (match strictOpt with
           | some strict => ["-o", "StrictHostKeyChecking=" ++ strict]
           | none => []) ++
          extraOptions ++ sshOptions ++ ["--", target] }

/-! ### Data model of the upgrade orchestrator -/

/-- The per-host configuration fields the Sequencer reads (`DiscourseConfig`):
the logical name and the optional distinct ssh address. -/
structure DiscourseCfg where
  name : String
  ssh_host : Option String
deriving DecidableEq

/-- The environment-variable command overrides read by `run_update`
(`DSC_SSH_OS_UPDATE_CMD`, `DSC_SSH_REBOOT_CMD`, `DSC_SSH_UPDATE_CMD`,
`DSC_SSH_CLEANUP_CMD`, `DSC_SSH_OS_UPDATE_ROLLBACK_CMD`, `DSC_SSH_OS_VERSION_CMD`);
`none` means the variable is unset. -/
structure UpdateCmds where
  osUpdateOverride : Option String
  rebootOverride : Option String
  updateOverride : Option String
  cleanupOverride : Option String
  rollbackOverride : Option String
  osVersionOverride : Option String

/-- `os_update_rollback_cmd` (src/commands/update.rs:472-480): read the env var
(empty string when unset), trim it, and treat an empty result as "no rollback". -/
def os_update_rollback_cmd (cmds : UpdateCmds) : Option String :=
  let raw := cmds.rollbackOverride.getD ""
  let trimmed := rustTrim raw
  if trimmed.isEmpty then none else some trimmed

/-- Results the external collaborators would return during one `run_update` run.
Each field is the outcome of one external call: `Except.error` is a failed remote
command (non-zero exit / connection error) or a failed HTTP fetch, `Except.ok` carries
the captured stdout (or, for the version fetch, the optional version string).
`probes` gives the result of the i-th reachability probe; the code treats `Ok(false)`
and `Err(_)` from `ssh_probe` identically, so a probe outcome is a single `Bool`. -/
structure SshEnv where
  fetchVersionBefore : Except String (Option String)
  osVersionPrimaryBefore : Except String String
  osVersionFallbackBefore : Except String String
  osUpdate : Except String String
  rollback : Except String String
  reboot : Except String String
  probes : Nat → Bool
  appUpgrade : Except String String
  fetchVersionAfter : Except String (Option String)
  cleanup : Except String String
  osVersionPrimaryAfter : Except String String
  osVersionFallbackAfter : Except String String

/-- `get_os_version` (src/commands/update.rs:450-463, identical copy at
src/main.rs:699-712): primary command, fallback on failure, `None` when both fail.
The Rust function returns `Result<Option<String>>` but every path is `Ok`. -/
def get_os_version (primary fallback : Except String String) : Option String :=
  match primary with
  | Except.ok output => some (rustTrim output)
  | Except.error _ =>
    match fallback with
    | Except.ok output => some (rustTrim output)
    | Except.error _ => none

/-- `UpdateMetadata` (src/commands/update.rs:69-77, identical copy at
src/main.rs:590-598): the Upgrade Outcome record. -/
structure UpdateMetadata where
  before_version : Option String
  after_version : Option String
  reclaimed_space : Option String
  before_os_version : Option String
  after_os_version : Option String
  os_updated : Bool
  server_rebooted : Bool
deriving DecidableEq

/-- Typed rendering of the `anyhow!` errors `run_update` can return. -/
inductive UpdateError
  | osUpdateFailed (target msg : String)
  | hostUnreachableAfterReboot
  | commandFailed (target stderr : String)
deriving DecidableEq

/-- Observable steps of one Sequencer run, in execution order.  Sleep events carry
the slept duration in seconds. -/
inductive Event
  | collectBeforeApp
  | collectBeforeOs
  | osUpdate
  | rollback
  | rollbackWarn
  | reboot
  | graceSleep (secs : Nat)
  | probe
  | probeSleep (secs : Nat)
  | appUpgrade
  | collectAfterApp
  | collectAfterOs
  | cleanup
deriving DecidableEq

/-- The AwaitOnline retry loop (src/commands/update.rs:168-186, identical logic at
src/main.rs:632-654), written with `remaining = max_attempts - attempts` as the
recursion variable.  Returns the final value of `attempts`, whether a probe
succeeded, and the probe/sleep events.  The loop body: probe; on success break;
on failure increment `attempts` and, if `attempts < max_attempts` still, sleep 30s
and retry. -/
def awaitOnlineGo (probes : Nat → Bool) : Nat → Nat → Nat × Bool × List Event
  | 0, attempts => (attempts, false, [])
  | remaining + 1, attempts =>
    if probes attempts then
      (attempts, true, [Event.probe])
    else if 0 < remaining then
      let r := awaitOnlineGo probes remaining (attempts + 1)
      (r.1, r.2.1, Event.probe :: Event.probeSleep 30 :: r.2.2)
    else
      (attempts + 1, false, [Event.probe])

/-- The test-bypass comparison guarding AwaitOnline
(src/commands/update.rs:164-165 and src/main.rs:628-629):
`std::env::var("DSC_SSH_OS_UPDATE_CMD").unwrap_or_default() != "echo OS packages updated"`.
Returns `true` when the bypass applies (AwaitOnline is skipped). -/
def awaitBypass (cmds : UpdateCmds) : Bool :=
  cmds.osUpdateOverride.getD "" == "echo OS packages updated"

/-- `run_update`, steps AppUpgrade / CollectAfter / Cleanup
(src/commands/update.rs:193-235): run the Discourse update command (`?` on failure),
re-fetch the app version (best-effort), run cleanup (`?` on failure), parse reclaimed
space, and build the Outcome with `os_updated = true`, the given `server_rebooted`,
and `after_os_version = None` (line 224 hard-codes `None`; the OS version is not
fetched again). -/
def run_update_tail (env : SshEnv) (target : String)
    (before_version before_os_version : Option String) (server_rebooted : Bool) :
    Except UpdateError UpdateMetadata × List Event :=
  match env.appUpgrade with
  | Except.error e => (Except.error (UpdateError.commandFailed target e), [Event.appUpgrade])
  | Except.ok _ =>
    let after_version :=
      match env.fetchVersionAfter with
      | Except.ok v => v
      | Except.error _ => none
    match env.cleanup with
    | Except.error e =>
      (Except.error (UpdateError.commandFailed target e),
       [Event.appUpgrade, Event.collectAfterApp, Event.cleanup])
    | Except.ok out =>
      (Except.ok
        { before_version := before_version
          after_version := after_version
          reclaimed_space := parse_reclaimed_space out
          before_os_version := before_os_version
          after_os_version := none
          os_updated := true
          server_rebooted := server_rebooted },
       [Event.appUpgrade, Event.collectAfterApp, Event.cleanup])

/-- `run_update` (src/commands/update.rs:79-235), the current Sequencer:
CollectBefore (best-effort), OSUpdate (on failure: best-effort rollback if configured,
then abort), Reboot (failure is non-fatal), AwaitOnline (unless the test bypass
applies: 30s grace sleep, then up to 12 probes at 30s intervals, aborting when all 12
fail), then the tail steps. -/
def run_update (cmds : UpdateCmds) (env : SshEnv) (cfg : DiscourseCfg) :
    Except UpdateError UpdateMetadata × List Event :=
  let target := cfg.ssh_host.getD cfg.name
  let before_version :=
    match env.fetchVersionBefore with
    | Except.ok v => v
    | Except.error _ => none
  let before_os_version := get_os_version env.osVersionPrimaryBefore env.osVersionFallbackBefore
  let ev0 := [Event.collectBeforeApp, Event.collectBeforeOs]
  match env.osUpdate with
  | Except.error err =>
    match os_update_rollback_cmd cmds with
    | none =>
      (Except.error (UpdateError.osUpdateFailed target err), ev0 ++ [Event.osUpdate])
    | some _ =>
      match env.rollback with
      | Except.ok _ =>
        (Except.error (UpdateError.osUpdateFailed target err),
         ev0 ++ [Event.osUpdate, Event.rollback])
      | Except.error _ =>
        (Except.error (UpdateError.osUpdateFailed target err),
         ev0 ++ [Event.osUpdate, Event.rollback, Event.rollbackWarn])
  | Except.ok _ =>
    match env.reboot with
    | Except.error _ =>
      let t := run_update_tail env target before_version before_os_version false
      (t.1, ev0 ++ [Event.osUpdate, Event.reboot] ++ t.2)
    | Except.ok _ =>
      if awaitBypass cmds then
        let t := run_update_tail env target before_version before_os_version true
        (t.1, ev0 ++ [Event.osUpdate, Event.reboot] ++ t.2)
      else
        let aw := awaitOnlineGo env.probes 12 0
        if 12 ≤ aw.1 then
          (Except.error UpdateError.hostUnreachableAfterReboot,
           ev0 ++ [Event.osUpdate, Event.reboot, Event.graceSleep 30] ++ aw.2.2)
        else
          let t := run_update_tail env target before_version before_os_version true
          (t.1, ev0 ++ [Event.osUpdate, Event.reboot, Event.graceSleep 30] ++ aw.2.2 ++ t.2)

/-- Tail of the superseded `run_update` in `main.rs` (lines 664-678): Discourse update
(`?` on failure), re-fetch app version, cleanup (`?`), parse reclaimed space, and —
unlike the `commands/update.rs` tail — re-fetch the OS version into
`after_os_version`. -/
def main_run_update_tail (env : SshEnv) (target : String)
    (before_version before_os_version : Option String)
    (os_updated server_rebooted : Bool) :
    Except UpdateError UpdateMetadata × List Event :=
  match env.appUpgrade with
  | Except.error e => (Except.error (UpdateError.commandFailed target e), [Event.appUpgrade])
  | Except.ok _ =>
    let after_version :=
      match env.fetchVersionAfter with
      | Except.ok v => v
      | Except.error _ => none
    match env.cleanup with
    | Except.error e =>
      (Except.error (UpdateError.commandFailed target e),
       [Event.appUpgrade, Event.collectAfterApp, Event.cleanup])
    | Except.ok out =>
      (Except.ok
        { before_version := before_version
          after_version := after_version
          reclaimed_space := parse_reclaimed_space out
          before_os_version := before_os_version
          after_os_version := get_os_version env.osVersionPrimaryAfter env.osVersionFallbackAfter
          os_updated := os_updated
          server_rebooted := server_rebooted },
       [Event.appUpgrade, Event.collectAfterApp, Event.cleanup, Event.collectAfterOs])

/-- The superseded `run_update` in `main.rs` (lines 600-679), which the binary's
`Update` subcommand calls: CollectBefore, then a single `match` on the OS-update
result whose `Err(_)` arm is EMPTY (the failure is swallowed, no rollback exists, and
`os_updated` stays false), reboot/AwaitOnline nested inside the `Ok` arm, then the
tail steps regardless. -/
def main_run_update (cmds : UpdateCmds) (env : SshEnv) (cfg : DiscourseCfg) :
    Except UpdateError UpdateMetadata × List Event :=
  let target := cfg.ssh_host.getD cfg.name
  let before_version :=
    match env.fetchVersionBefore with
    | Except.ok v => v
    | Except.error _ => none
  let before_os_version := get_os_version env.osVersionPrimaryBefore env.osVersionFallbackBefore
  let ev0 := [Event.collectBeforeApp, Event.collectBeforeOs]
  match env.osUpdate with
  | Except.error _ =>
    let t := main_run_update_tail env target before_version before_os_version false false
    (t.1, ev0 ++ [Event.osUpdate] ++ t.2)
  | Except.ok _ =>
    match env.reboot with
    | Except.error _ =>
      let t := main_run_update_tail env target before_version before_os_version true false
      (t.1, ev0 ++ [Event.osUpdate, Event.reboot] ++ t.2)
    | Except.ok _ =>
      if awaitBypass cmds then
        let t := main_run_update_tail env target before_version before_os_version true true
        (t.1, ev0 ++ [Event.osUpdate, Event.reboot] ++ t.2)
      else
        let aw := awaitOnlineGo env.probes 12 0
        if 12 ≤ aw.1 then
          (Except.error UpdateError.hostUnreachableAfterReboot,
           ev0 ++ [Event.osUpdate, Event.reboot, Event.graceSleep 30] ++ aw.2.2)
        else
          let t := main_run_update_tail env target before_version before_os_version true true
          (t.1, ev0 ++ [Event.osUpdate, Event.reboot, Event.graceSleep 30] ++ aw.2.2 ++ t.2)

/-! ### Fleet Runner -/

/-- Errors `update_all` can return to its caller. -/
inductive FleetError
  | concurrentDisabled
  | hostFailed (name : String) (err : UpdateError)
deriving DecidableEq

/-- Sequential body of `update_all` (src/commands/update.rs:34-42): iterate the
configured hosts in order, run one host (fail-fast `?`), then optionally post the
changelog (fail-fast `?`).  `runHost`/`postHost` stand for `run_update` and
`handle_changelog_post` applied to one host.  The second component records which
hosts were attempted, in order. -/
def update_all_go (runHost : DiscourseCfg → Except UpdateError UpdateMetadata)
    (postHost : DiscourseCfg → UpdateMetadata → Except UpdateError Unit)
    (postChangelog : Bool) : List DiscourseCfg → Except FleetError Unit × List String
  | [] => (Except.ok (), [])
  | h :: rest =>
    match runHost h with
    | Except.error e => (Except.error (FleetError.hostFailed h.name e), [h.name])
    | Except.ok m =>
      if postChangelog then
        match postHost h m with
        | Except.error e => (Except.error (FleetError.hostFailed h.name e), [h.name])
        | Except.ok _ =>
          let r := update_all_go runHost postHost postChangelog rest
          (r.1, h.name :: r.2)
      else
        let r := update_all_go runHost postHost postChangelog rest
        (r.1, h.name :: r.2)

/-- `update_all` (src/commands/update.rs:23-67; the guard is copied verbatim at
src/main.rs:497-501): when `concurrent` is true it returns the
"--concurrent is disabled for 'dsc update all' because it stops on first failure"
error IMMEDIATELY, before touching any host; the thread-pool code below the guard
(lines 44-66, with its `handles.pop()` join scheme) is unreachable.  `maxThreads`
(the `max` argument) is only read inside that unreachable branch. -/
def update_all (hosts : List DiscourseCfg)
    (runHost : DiscourseCfg → Except UpdateError UpdateMetadata)
    (postHost : DiscourseCfg → UpdateMetadata → Except UpdateError Unit)
    (concurrent : Bool) (maxThreads : Option Nat) (postChangelog : Bool) :
    Except FleetError Unit × List String :=
  if concurrent then (Except.error FleetError.concurrentDisabled, [])
  else update_all_go runHost postHost postChangelog hosts

/-! ### Audit-log file opening (main.rs sequential `update_all`) -/

/-- The subset of `std::fs::OpenOptions` flags relevant to the audit log. -/
structure OpenFlags where
  create : Bool
  createNew : Bool
  append : Bool
deriving DecidableEq

/-- The options `main.rs`'s sequential `update_all` passes when opening the date-named
audit-log file (src/main.rs:506-510):
`fs::OpenOptions::new().create(true).append(true).open(&log_path)` — no
`create_new` (exclusive) flag and no symlink check anywhere in the function. -/
def update_all_log_open_flags : OpenFlags :=
  { create := true, createNew := false, append := true }

/-- State of the path the log is opened at: whether something exists there and whether
that something is a symbolic link (pointing at an existing file). -/
structure LogPathState where
  present : Bool
  isSymlink : Bool
deriving DecidableEq

/-- What opening the log can do. -/
inductive OpenOutcome
  | opened (throughSymlink : Bool)
  | refusedExisting
deriving DecidableEq

/-- Semantics of `OpenOptions::open` for the flag combinations in play (POSIX `open`):
`create_new` maps to `O_CREAT|O_EXCL` and refuses any existing path, symlink included;
without it the path is opened (creating it if absent), following a symbolic link when
one is present.  No flag used here implies `O_NOFOLLOW`. -/
def openLogFile (flags : OpenFlags) (st : LogPathState) : OpenOutcome :=
  if flags.createNew && st.present then OpenOutcome.refusedExisting
  else OpenOutcome.opened (st.present && st.isSymlink)

/-! ### Changelog payload (Report Publisher) -/

/-- The element list `build_changelog_payload` pushes into `body`
(src/commands/update.rs:482-522; the same rendering is inlined in `main.rs`'s
`post_changelog_update`, lines 729-768).  `testMarker` models
`std::env::var("DSC_TEST_MARKER").ok()`.  The string between the OS versions is the
three characters the source file literally contains at line 495. -/
def changelog_body (testMarker : Option String) (metadata : Option UpdateMetadata) :
    List String :=
  let version :=
    match metadata with
    | none => "unknown"
    | some meta =>
      match meta.after_version with
      | some v => v
      | none => meta.before_version.getD "unknown"
  let reclaimed :=
    match metadata with
    | none => "unknown"
    | some meta => meta.reclaimed_space.getD "unknown"
  let osPart :=
    match metadata with
    | some meta =>
      (if meta.os_updated then
        ["- [x] Ubuntu OS updated"] ++
        (match meta.before_os_version, meta.after_os_version with
         | some before_os, some after_os =>
           ["  OS version: " ++ before_os ++ " â†’ " ++ after_os]
         | _, _ => [])
      else
        ["- [ ] Ubuntu OS updated", "  (OS update was skipped or failed)"]) ++
      (if meta.server_rebooted then
        ["- [x] Server rebooted"]
      else
        ["- [ ] Server rebooted", "  (Server reboot was skipped or failed)"])
    | none => ["- [x] Ubuntu OS updated", "- [x] Server rebooted"]
  osPart ++
  ["- [x] Updated Discourse to version " ++ version,
   "- [x] `./launcher cleanup` Total reclaimed space: " ++ reclaimed] ++
  (match testMarker with
   | some marker => ["- Run-ID: " ++ marker]
   | none => [])

/-- `build_changelog_payload` (src/commands/update.rs:482-523): the pushed elements
joined with newlines. -/
def build_changelog_payload (testMarker : Option String)
    (metadata : Option UpdateMetadata) : String :=
  String.intercalate "\n" (changelog_body testMarker metadata)

/-- The fixed prefix of the run-identifier line in a Changelog Payload. -/
def runIdL : List Char := "- Run-ID:".data

/-! ### Concrete fixtures for closed runs -/

/-- An environment in which every external call succeeds. -/
def envAllOk : SshEnv :=
  { fetchVersionBefore := Except.ok (some "3.2.0")
    osVersionPrimaryBefore := Except.ok "Ubuntu 22.04.3 LTS\n"
    osVersionFallbackBefore := Except.ok "Ubuntu 22.04.3 LTS\n"
    osUpdate := Except.ok "OS packages updated\n"
    rollback := Except.ok ""
    reboot := Except.ok ""
    probes := fun _ => true
    appUpgrade := Except.ok "update-ok\n"
    fetchVersionAfter := Except.ok (some "3.2.1")
    cleanup := Except.ok "Total reclaimed space: 128.4 MB\n"
    osVersionPrimaryAfter := Except.ok "Ubuntu 22.04.4 LTS\n"
    osVersionFallbackAfter := Except.ok "Ubuntu 22.04.4 LTS\n" }

/-- No command override set: every `DSC_SSH_*` variable is unset. -/
def cmdsDefault : UpdateCmds :=
  { osUpdateOverride := none
    rebootOverride := none
    updateOverride := none
    cleanupOverride := none
    rollbackOverride := none
    osVersionOverride := none }

/-- A host entry with no distinct ssh address. -/
def cfgForum : DiscourseCfg := { name := "forum.example.com", ssh_host := none }

/-- The Outcome `run_update cmdsDefault envAllOk cfgForum` produces. -/
def metaAllOk : UpdateMetadata :=
  { before_version := some "3.2.0"
    after_version := some "3.2.1"
    reclaimed_space := some "128.4 MB"
    before_os_version := some "Ubuntu 22.04.3 LTS"
    after_os_version := none
    os_updated := true
    server_rebooted := true }

/-! ### Lemmas about the string-splitting layer -/

theorem splitOnFuel_ne_nil (sep : List Char) (fuel : Nat) (s : List Char) :
    splitOnFuel sep fuel s ≠ [] := by
  induction fuel generalizing s with
  | zero => simp [splitOnFuel]
  | succ fuel ih =>
    cases s with
    | nil => simp [splitOnFuel]
    | cons c rest =>
      simp only [splitOnFuel]
      split
      · simp
      · split
        · simp
        · simp

theorem isPrefixOfL_append_self (l r : List Char) : isPrefixOfL l (l ++ r) = true := by
  induction l with
  | nil => rfl
  | cons a as ih => simp [isPrefixOfL, ih]

theorem splitOnFuel_of_not_occurs (sep : List Char) (fuel : Nat) (s : List Char)
    (hf : s.length < fuel) (h : occursIn sep s = false) :
    splitOnFuel sep fuel s = [s] := by
  induction fuel generalizing s with
  | zero => omega
  | succ fuel ih =>
    cases s with
    | nil => simp [splitOnFuel]
    | cons c rest =>
      simp only [occursIn, Bool.or_eq_false_iff] at h
      simp only [splitOnFuel, h.1, Bool.and_false, if_neg]
      rw [ih rest (by simpa using Nat.lt_of_succ_lt_succ hf) h.2]
      simp

theorem splitOnFuel_of_occurs (sep : List Char) (fuel : Nat) (s : List Char)
    (hsep : sep ≠ []) (hf : s.length < fuel) (h : occursIn sep s = true) :
    2 ≤ (splitOnFuel sep fuel s).length := by
  induction fuel generalizing s with
  | zero => omega
  | succ fuel ih =>
    cases s with
    | nil =>
      exfalso
      rcases sep with _ | ⟨a, as⟩
      · exact hsep rfl
      · simp [occursIn, List.isEmpty] at h
    | cons c rest =>
      simp only [splitOnFuel]
      split
      · have := splitOnFuel_ne_nil sep fuel ((c :: rest).drop sep.length)
        cases hsplit : splitOnFuel sep fuel ((c :: rest).drop sep.length) with
        | nil => exact absurd hsplit this
        | cons p ps => simp
      · rename_i hguard
        have hpre : isPrefixOfL sep (c :: rest) = false := by
          rcases hb : isPrefixOfL sep (c :: rest)
          · rfl
          · exfalso
            apply hguard
            simp [hb, List.isEmpty_iff, hsep]
        have hrest : occursIn sep rest = true := by
          simpa [occursIn, hpre] using h
        have h2 := ih rest (by simpa using Nat.lt_of_succ_lt_succ hf) hrest
        cases hsplit : splitOnFuel sep fuel rest with
        | nil => exact absurd hsplit (splitOnFuel_ne_nil sep fuel rest)
        | cons p ps =>
          rw [hsplit] at h2
          simpa using h2

theorem splitOnFuel_fuel_congr (sep : List Char) (f1 f2 : Nat) (s : List Char)
    (h1 : s.length < f1) (h2 : s.length < f2) :
    splitOnFuel sep f1 s = splitOnFuel sep f2 s := by
  induction f1 generalizing f2 s with
  | zero => omega
  | succ f1 ih =>
    cases f2 with
    | zero => omega
    | succ f2 =>
      cases s with
      | nil => simp [splitOnFuel]
      | cons c rest =>
        have h1' : rest.length + 1 < f1 + 1 := by simpa using h1
        have h2' : rest.length + 1 < f2 + 1 := by simpa using h2
        simp only [splitOnFuel]
        split
        · rename_i hguard
          have hs : 1 ≤ sep.length := by
            cases sep with
            | nil => simp at hguard
            | cons a as => simp
          have hd1 : ((c :: rest).drop sep.length).length < f1 := by
            simp only [List.length_drop, List.length_cons]
            omega
          have hd2 : ((c :: rest).drop sep.length).length < f2 := by
            simp only [List.length_drop, List.length_cons]
            omega
          rw [ih f2 _ hd1 hd2]
        · rw [ih f2 rest (by omega) (by omega)]

theorem splitOnL_of_not_occurs (sep s : List Char) (h : occursIn sep s = false) :
    splitOnL sep s = [s] :=
  splitOnFuel_of_not_occurs sep (s.length + 1) s (Nat.lt_succ_self _) h

theorem splitOnL_of_occurs (sep s : List Char) (hsep : sep ≠ [])
    (h : occursIn sep s = true) : 2 ≤ (splitOnL sep s).length :=
  splitOnFuel_of_occurs sep (s.length + 1) s hsep (Nat.lt_succ_self _) h

theorem splitOnFuel_append_first (sep post : List Char) (hsep : sep ≠ []) :
    ∀ (pre : List Char) (fuel : Nat), (pre ++ sep ++ post).length < fuel →
    (∀ i, i < pre.length → isPrefixOfL sep ((pre ++ sep ++ post).drop i) = false) →
    splitOnFuel sep fuel (pre ++ sep ++ post) = pre :: splitOnL sep post := by
  rcases sep with _ | ⟨a, as⟩
  · exact absurd rfl hsep
  intro pre
  induction pre with
  | nil =>
    intro fuel hf _
    cases fuel with
    | zero => exact absurd hf (by omega)
    | succ fuel =>
      simp only [List.nil_append, List.cons_append] at hf ⊢
      have hpref : isPrefixOfL (a :: as) (a :: (as ++ post)) = true := by
        have := isPrefixOfL_append_self (a :: as) post
        simpa using this
      simp only [splitOnFuel]
      rw [if_pos (by simp [hpref])]
      have hdrop : (a :: (as ++ post)).drop (a :: as).length = post := by
        have := List.drop_left (a :: as) post
        simpa using this
      rw [hdrop]
      have hlen : post.length < fuel := by
        simp only [List.length_cons, List.length_append] at hf
        omega
      rw [splitOnFuel_fuel_congr (a :: as) fuel (post.length + 1) post hlen
        (Nat.lt_succ_self _)]
      rfl
  | cons c pre ih =>
    intro fuel hf hstraddle
    cases fuel with
    | zero => exact absurd hf (by omega)
    | succ fuel =>
      have h0 : isPrefixOfL (a :: as) (c :: (pre ++ a :: as ++ post)) = false := by
        have h' := hstraddle 0 (by simp)
        rwa [List.drop_zero, List.cons_append, List.cons_append] at h'
      have hstep : splitOnFuel (a :: as) (fuel + 1) ((c :: pre) ++ (a :: as) ++ post) =
          match splitOnFuel (a :: as) fuel (pre ++ (a :: as) ++ post) with
          | [] => [[c]]
          | p :: ps => (c :: p) :: ps := by
        simp only [List.cons_append, splitOnFuel, h0, Bool.and_false, if_neg]
        rfl
      rw [hstep]
      have hrec := ih fuel
        (by simp only [List.length_append, List.length_cons] at hf ⊢; omega)
        (by
          intro i hi
          have := hstraddle (i + 1) (by simp; omega)
          simpa [List.cons_append] using this)
      rw [hrec]

theorem splitOnL_append_first (sep pre post : List Char) (hsep : sep ≠ [])
    (hstraddle : ∀ i, i < pre.length →
      isPrefixOfL sep ((pre ++ sep ++ post).drop i) = false) :
    splitOnL sep (pre ++ sep ++ post) = pre :: splitOnL sep post :=
  splitOnFuel_append_first sep post hsep pre ((pre ++ sep ++ post).length + 1)
    (Nat.lt_succ_self _) hstraddle

theorem occursIn_singleton (c : Char) (s : List Char) :
    occursIn [c] s = true ↔ c ∈ s := by
  induction s with
  | nil => simp [occursIn, List.isEmpty]
  | cons d rest ih =>
    simp only [occursIn, isPrefixOfL, Bool.and_true, Bool.or_eq_true, List.mem_cons]
    constructor
    · rintro (h | h)
      · left
        have : c = d := by simpa using h
        exact this
      · right; exact ih.mp h
    · rintro (h | h)
      · left; simp [h]
      · right; exact ih.mpr h

theorem stripTrailingCr_of_not_occurs (s : List Char)
    (hr : occursIn ['\r'] s = false) : stripTrailingCr s = s := by
  unfold stripTrailingCr
  rw [if_neg]
  intro hlast
  have hmem : '\r' ∈ s := List.mem_of_getLast?_eq_some hlast
  rw [← occursIn_singleton '\r' s, hr] at hmem
  exact absurd hmem (by simp)

theorem linesL_single (s : List Char) (hs : s ≠ [])
    (hn : occursIn ['\n'] s = false) (hr : occursIn ['\r'] s = false) :
    linesL s = [s] := by
  unfold linesL
  rw [if_neg hs]
  simp only [splitOnL_of_not_occurs _ _ hn]
  rw [if_neg (by simp [hs])]
  simp [stripTrailingCr_of_not_occurs s hr]

theorem splitOn_marker_isSome (line : List Char) :
    ((splitOnL markerL line)[1]?).isSome = occursIn markerL line := by
  cases hocc : occursIn markerL line with
  | false => rw [splitOnL_of_not_occurs _ _ hocc]; rfl
  | true =>
    have h2 := splitOnL_of_occurs markerL line (by decide) hocc
    rcases hs : splitOnL markerL line with _ | ⟨p, rest⟩
    · rw [hs] at h2; simp at h2
    · rcases rest with _ | ⟨q, t⟩
      · rw [hs] at h2; simp at h2
      · simp

/-! ### Claim theorems -/

/-- C7, counterexample: the claim says validation fails for EVERY target string
containing whitespace, but `validate_ssh_target` trims the target before checking, so
`"host "` — which contains a whitespace character — is accepted. -/
theorem validate_ssh_target_accepts_edge_whitespace :
    "host ".data.any rustIsWhitespace = true ∧
    validate_ssh_target "host " = Except.ok () := by
  constructor
  · decide
  · rfl

/-- C7 (amended): `validate_ssh_target` first trims the target; it succeeds iff the
trimmed target is non-empty, does not start with `'-'`, and contains no whitespace
(so a target whose only whitespace is leading/trailing is accepted).  In particular it
rejects `""`, `"-x"` and `"host name"`, accepts `"forum.example.com"`, and
`build_ssh_command` fails on exactly the targets validation rejects — before an
invocation is ever constructed. -/
theorem validate_ssh_target_spec :
    (∀ target : String,
      validate_ssh_target target = Except.ok () ↔
        trimL target.data ≠ [] ∧ (trimL target.data).head? ≠ some '-' ∧
          (trimL target.data).any rustIsWhitespace = false) ∧
    (∀ strictOpt extraOptions sshOptions target,
      (build_ssh_command strictOpt extraOptions sshOptions target).isOk =
        (validate_ssh_target target).isOk) ∧
    (validate_ssh_target "").isOk = false ∧
    (validate_ssh_target "-x").isOk = false ∧
    (validate_ssh_target "host name").isOk = false ∧
    (validate_ssh_target "forum.example.com").isOk = true := by
  refine ⟨?_, ?_, by decide, by decide, by decide, by decide⟩
  · intro target
    unfold validate_ssh_target
    generalize trimL target.data = t
    by_cases h1 : t.isEmpty
    · rw [if_pos h1]
      simp [List.isEmpty_iff.mp h1]
    · rw [if_neg h1]
      by_cases h2 : t.head? = some '-'
      · rw [if_pos h2]
        simp [h2]
      · rw [if_neg h2]
        by_cases h3 : t.any rustIsWhitespace
        · rw [if_pos h3]
          simp [h3]
        · rw [if_neg h3]
          simp only [List.isEmpty_iff] at h1
          constructor
          · intro _
            exact ⟨h1, h2, by simpa using h3⟩
          · intro _
            rfl
  · intro strictOpt extraOptions sshOptions target
    unfold build_ssh_command
    cases validate_ssh_target target with
    | error e => rfl
    | ok u => rfl

/-- C8: `parse_reclaimed_space` yields a value exactly when some line of the output
contains the literal marker `Total reclaimed space:`; when a single-line output has the
shape `pre ++ marker ++ post` (first marker occurrence at the end of `pre`, no further
occurrence in `post`), the value is exactly the trimmed trailing text `post`; on the
spec's example line the result is exactly `"128.4 MB"`; and an output without the
marker yields `none` — not an empty string, and no error (the function is total). -/
theorem parse_reclaimed_space_spec :
    (∀ output : String,
      (parse_reclaimed_space output).isSome = true ↔
        ∃ line ∈ linesL output.data, occursIn markerL line = true) ∧
    (∀ pre post : List Char,
      (∀ i, i < pre.length →
        isPrefixOfL markerL ((pre ++ markerL ++ post).drop i) = false) →
      occursIn markerL post = false →
      occursIn ['\n'] (pre ++ markerL ++ post) = false →
      occursIn ['\r'] (pre ++ markerL ++ post) = false →
      parse_reclaimed_space (String.mk (pre ++ markerL ++ post)) =
        some (String.mk (trimL post))) ∧
    parse_reclaimed_space "Total reclaimed space: 128.4 MB" = some "128.4 MB" ∧
    parse_reclaimed_space "Cleanup done\nnothing else" = none := by
  refine ⟨?_, ?_, by decide, by decide⟩
  · intro output
    unfold parse_reclaimed_space
    rw [Option.isSome_map']
    rw [List.findSome?_isSome_iff]
    constructor
    · rintro ⟨line, hmem, hsome⟩
      exact ⟨line, hmem, by rw [← splitOn_marker_isSome]; exact hsome⟩
    · rintro ⟨line, hmem, hocc⟩
      exact ⟨line, hmem, by rw [splitOn_marker_isSome]; exact hocc⟩
  · intro pre post hstraddle hpost hn hr
    have hne : pre ++ markerL ++ post ≠ [] := by
      intro h
      rcases List.append_eq_nil.mp h with ⟨h1, _⟩
      rcases List.append_eq_nil.mp h1 with ⟨_, hm⟩
      exact (by decide : markerL ≠ []) hm
    unfold parse_reclaimed_space
    have hdata : (String.mk (pre ++ markerL ++ post)).data = pre ++ markerL ++ post := rfl
    rw [hdata, linesL_single _ hne hn hr]
    rw [List.findSome?_cons]
    rw [splitOnL_append_first markerL pre post (by decide) hstraddle,
      splitOnL_of_not_occurs _ _ hpost]
    rfl

/-- Witness for the hypotheses of `parse_reclaimed_space_spec`: a concrete single-line
cleanup output with leading text. -/
theorem parse_reclaimed_space_spec_witness :
    parse_reclaimed_space (String.mk ("disk: ".data ++ markerL ++ " 99 GB".data)) =
      some (String.mk (trimL " 99 GB".data)) :=
  parse_reclaimed_space_spec.2.1 "disk: ".data " 99 GB".data (by decide) (by decide)
    (by decide) (by decide)

/-! ### Helpers for the changelog-payload claims -/

theorem isPrefixOfL_append_of_le (pat fixed t : List Char)
    (h : pat.length ≤ fixed.length) :
    isPrefixOfL pat (fixed ++ t) = isPrefixOfL pat fixed := by
  induction pat generalizing fixed with
  | nil => simp [isPrefixOfL]
  | cons a as ih =>
    cases fixed with
    | nil => simp at h
    | cons b bs =>
      simp only [List.cons_append, isPrefixOfL, List.append_eq]
      rw [ih bs (by simpa using h)]

theorem runId_prefix_concat (fixed rest : List Char)
    (hlen : runIdL.length ≤ fixed.length)
    (hfix : isPrefixOfL runIdL fixed = false) :
    isPrefixOfL runIdL (fixed ++ rest) = false := by
  rw [isPrefixOfL_append_of_le _ _ _ hlen]
  exact hfix

theorem runId_prefix_runIdLine (s : String) :
    isPrefixOfL runIdL ("- Run-ID: " ++ s).data = true := by
  have hdata : ("- Run-ID: " ++ s).data = runIdL ++ (' ' :: s.data) := by
    rw [String.data_append]
    rw [show "- Run-ID: ".data = runIdL ++ [' '] by decide]
    simp
  rw [hdata]
  exact isPrefixOfL_append_self _ _

theorem runId_not_bracket (t : List Char) :
    isPrefixOfL runIdL ('-' :: ' ' :: '[' :: t) = false := rfl

theorem runId_not_space (t : List Char) :
    isPrefixOfL runIdL (' ' :: t) = false := rfl

/-- C9: `build_changelog_payload` is a pure function of the run-marker setting and the
Outcome alone: identical Outcomes under the same marker setting give byte-identical
payloads, and an element starting with `- Run-ID:` is pushed into the payload body
exactly when a marker was supplied. -/
theorem build_changelog_payload_deterministic :
    ∀ (marker : Option String) (m1 m2 : Option UpdateMetadata), m1 = m2 →
      build_changelog_payload marker m1 = build_changelog_payload marker m2 ∧
      ((changelog_body marker m1).any fun e => isPrefixOfL runIdL e.data) =
        marker.isSome := by
  intro marker m1 m2 hm
  subst hm
  refine ⟨rfl, ?_⟩
  cases marker with
  | some id =>
    refine List.any_eq_true.mpr ⟨"- Run-ID: " ++ id, ?_, runId_prefix_runIdLine id⟩
    simp [changelog_body]
  | none =>
    rcases m1 with _ | ⟨bv, av, rs, bo, ao, osu, sr⟩
    · decide
    · cases osu <;> cases sr <;> rcases bo with _ | bos <;> rcases ao with _ | aos <;>
        simp [changelog_body, List.any_append, List.any_cons, List.any_nil,
          runId_not_bracket, runId_not_space]

/-- Witness for `build_changelog_payload_deterministic` at a concrete marker and
Outcome. -/
theorem build_changelog_payload_deterministic_witness :
    build_changelog_payload (some "run-77") (some
      { before_version := some "3.2.0", after_version := some "3.2.1",
        reclaimed_space := some "128.4 MB", before_os_version := some "Ubuntu 22.04",
        after_os_version := none, os_updated := true, server_rebooted := true }) =
      build_changelog_payload (some "run-77") (some
      { before_version := some "3.2.0", after_version := some "3.2.1",
        reclaimed_space := some "128.4 MB", before_os_version := some "Ubuntu 22.04",
        after_os_version := none, os_updated := true, server_rebooted := true }) ∧
    ((changelog_body (some "run-77") (some
      { before_version := some "3.2.0", after_version := some "3.2.1",
        reclaimed_space := some "128.4 MB", before_os_version := some "Ubuntu 22.04",
        after_os_version := none, os_updated := true, server_rebooted := true })).any
        fun e => isPrefixOfL runIdL e.data) = (some "run-77").isSome :=
  build_changelog_payload_deterministic (some "run-77") _ _ rfl

/-! ### Helpers for the Sequencer claims -/

theorem str_ne_of_prefix_skew (p : List Char) (a b : String)
    (ha : isPrefixOfL p a.data = true) (hb : isPrefixOfL p b.data = false) : a ≠ b := by
  intro e
  rw [e, hb] at ha
  cases ha

theorem unchecked_os_ne_version_line (v : String) :
    ("- [ ] Ubuntu OS updated" : String) ≠ "- [x] Updated Discourse to version " ++ v :=
  str_ne_of_prefix_skew "- [ ]".data _ _ (by decide)
    (by rw [String.data_append, isPrefixOfL_append_of_le _ _ _ (by decide)]; decide)

theorem unchecked_os_ne_cleanup_line (v : String) :
    ("- [ ] Ubuntu OS updated" : String) ≠
      "- [x] `./launcher cleanup` Total reclaimed space: " ++ v :=
  str_ne_of_prefix_skew "- [ ]".data _ _ (by decide)
    (by rw [String.data_append, isPrefixOfL_append_of_le _ _ _ (by decide)]; decide)

theorem unchecked_os_ne_os_line (b a : String) :
    ("- [ ] Ubuntu OS updated" : String) ≠ "  OS version: " ++ b ++ " â†’ " ++ a := by
  refine str_ne_of_prefix_skew "- [ ]".data _ _ (by decide) ?_
  have hdata : ("  OS version: " ++ b ++ " â†’ " ++ a).data =
      "  OS version: ".data ++ (b.data ++ (" â†’ ".data ++ a.data)) := by simp
  rw [hdata, isPrefixOfL_append_of_le _ _ _ (by decide)]
  decide

theorem unchecked_os_ne_runId_line (v : String) :
    ("- [ ] Ubuntu OS updated" : String) ≠ "- Run-ID: " ++ v :=
  str_ne_of_prefix_skew "- [ ]".data _ _ (by decide)
    (by rw [String.data_append, isPrefixOfL_append_of_le _ _ _ (by decide)]; decide)

/-- With `os_updated = true` the rendering branch pushing `- [ ] Ubuntu OS updated` is
not taken, and no other pushed element can equal that line. -/
theorem changelog_no_unchecked_os (marker : Option String) (m : UpdateMetadata)
    (h : m.os_updated = true) :
    ("- [ ] Ubuntu OS updated" : String) ∉ changelog_body marker (some m) := by
  rcases m with ⟨bv, av, rs, bo, ao, osu, sr⟩
  simp only [] at h
  subst h
  cases sr <;> rcases bo with _ | bos <;> rcases ao with _ | aos <;>
    rcases marker with _ | mk <;>
    simp +decide [changelog_body, unchecked_os_ne_version_line,
      unchecked_os_ne_cleanup_line, unchecked_os_ne_os_line, unchecked_os_ne_runId_line]

/-- Inversion of the tail steps: an `Ok` Outcome fixes every field. -/
theorem run_update_tail_ok (env : SshEnv) (target : String) (bv bo : Option String)
    (sr : Bool) (m : UpdateMetadata)
    (h : (run_update_tail env target bv bo sr).1 = Except.ok m) :
    m.os_updated = true ∧ m.server_rebooted = sr ∧ m.after_os_version = none ∧
    m.before_version = bv ∧ m.before_os_version = bo ∧
    m.after_version = (match env.fetchVersionAfter with
      | Except.ok v => v
      | Except.error _ => none) ∧
    m.reclaimed_space = (match env.cleanup with
      | Except.ok out => parse_reclaimed_space out
      | Except.error _ => none) := by
  rcases happ : env.appUpgrade with e | o
  · simp [run_update_tail, happ] at h
  · rcases hcl : env.cleanup with e2 | o2
    · simp [run_update_tail, happ, hcl] at h
    · simp only [run_update_tail, happ, hcl, Except.ok.injEq] at h
      subst h
      refine ⟨rfl, rfl, rfl, rfl, rfl, rfl, ?_⟩
      rfl

theorem run_update_tail_not_unreachable (env : SshEnv) (target : String)
    (bv bo : Option String) (sr : Bool) :
    (run_update_tail env target bv bo sr).1 ≠
      Except.error UpdateError.hostUnreachableAfterReboot := by
  rcases happ : env.appUpgrade with e | o <;> rcases hcl : env.cleanup with e2 | o2 <;>
    simp [run_update_tail, happ, hcl]

theorem run_update_tail_events (env : SshEnv) (target : String)
    (bv bo : Option String) (sr : Bool) :
    (run_update_tail env target bv bo sr).2 = [Event.appUpgrade] ∨
    (run_update_tail env target bv bo sr).2 =
      [Event.appUpgrade, Event.collectAfterApp, Event.cleanup] := by
  rcases happ : env.appUpgrade with e | o <;> rcases hcl : env.cleanup with e2 | o2 <;>
    simp [run_update_tail, happ, hcl]

/-- Any `Ok` result of `run_update` came through the tail steps. -/
theorem run_update_ok_os_updated (cmds : UpdateCmds) (env : SshEnv) (cfg : DiscourseCfg)
    (m : UpdateMetadata) (evs : List Event)
    (h : run_update cmds env cfg = (Except.ok m, evs)) : m.os_updated = true := by
  rcases hos : env.osUpdate with e | o
  · rcases hrb : os_update_rollback_cmd cmds with _ | rb
    · simp [run_update, hos, hrb] at h
    · rcases hrl : env.rollback with e2 | o2 <;> simp [run_update, hos, hrb, hrl] at h
  · rcases hrbt : env.reboot with e2 | o2
    · simp only [run_update, hos, hrbt, Prod.mk.injEq] at h
      exact (run_update_tail_ok _ _ _ _ _ _ h.1).1
    · by_cases hbp : awaitBypass cmds
      · simp [run_update, hos, hrbt, hbp] at h
        exact (run_update_tail_ok _ _ _ _ _ _ h.1).1
      · by_cases haw : 12 ≤ (awaitOnlineGo env.probes 12 0).1
        · simp [run_update, hos, hrbt, hbp, haw] at h
        · simp [run_update, hos, hrbt, hbp, haw] at h
          exact (run_update_tail_ok _ _ _ _ _ _ h.1).1

/-- C10: every Upgrade Outcome the Sequencer in `commands/update.rs` returns has
`os_updated = true` (the Outcome is only constructed after the OS-update command
succeeded), so the changelog rendering branch for `os_updated = false`
(`- [ ] Ubuntu OS updated`) is unreachable from any Outcome this Sequencer
produces. -/
theorem run_update_outcome_os_updated :
    ∀ (cmds : UpdateCmds) (env : SshEnv) (cfg : DiscourseCfg) (m : UpdateMetadata)
      (evs : List Event) (marker : Option String),
      run_update cmds env cfg = (Except.ok m, evs) →
      m.os_updated = true ∧
      ("- [ ] Ubuntu OS updated" : String) ∉ changelog_body marker (some m) := by
  intro cmds env cfg m evs marker h
  have hos := run_update_ok_os_updated cmds env cfg m evs h
  exact ⟨hos, changelog_no_unchecked_os marker m hos⟩

/-- Witness for `run_update_outcome_os_updated` on a fully succeeding concrete run. -/
theorem run_update_outcome_os_updated_witness :
    ({ before_version := some "3.2.0", after_version := some "3.2.1",
       reclaimed_space := some "128.4 MB",
       before_os_version := some "Ubuntu 22.04.3 LTS",
       after_os_version := none, os_updated := true,
       server_rebooted := true } : UpdateMetadata).os_updated = true ∧
    ("- [ ] Ubuntu OS updated" : String) ∉ changelog_body none (some
      { before_version := some "3.2.0", after_version := some "3.2.1",
        reclaimed_space := some "128.4 MB",
        before_os_version := some "Ubuntu 22.04.3 LTS",
        after_os_version := none, os_updated := true, server_rebooted := true }) :=
  run_update_outcome_os_updated cmdsDefault envAllOk cfgForum _
    [Event.collectBeforeApp, Event.collectBeforeOs, Event.osUpdate, Event.reboot,
     Event.graceSleep 30, Event.probe, Event.appUpgrade, Event.collectAfterApp,
     Event.cleanup] none rfl

theorem run_update_tail_isOk (env : SshEnv) (target : String)
    (bv bo : Option String) (sr : Bool) :
    (run_update_tail env target bv bo sr).1.isOk =
      (env.appUpgrade.isOk && env.cleanup.isOk) := by
  rcases happ : env.appUpgrade with e | o <;> rcases hcl : env.cleanup with e2 | o2 <;>
    simp [run_update_tail, happ, hcl, Except.isOk, Except.toBool]

/-- C1 (amended): for the Sequencer in `commands/update.rs`, a failing OS-update
command with a configured rollback command leads to exactly one rollback invocation
(whose own failure only adds a warning and is never propagated), exactly one
OS-update-failed error surfaced to the caller, no Outcome, and no later step: no
reboot, no AwaitOnline sleep or probe, no app upgrade, no after-collection, no
cleanup.  (The superseded copy of `run_update` in `main.rs` violates this; see the
counterexample.) -/
theorem run_update_os_update_failure_rollback :
    ∀ (cmds : UpdateCmds) (env : SshEnv) (cfg : DiscourseCfg) (rb err : String),
      os_update_rollback_cmd cmds = some rb →
      env.osUpdate = Except.error err →
      (run_update cmds env cfg).1 =
        Except.error (UpdateError.osUpdateFailed (cfg.ssh_host.getD cfg.name) err) ∧
      (run_update cmds env cfg).2.count Event.rollback = 1 ∧
      (run_update cmds env cfg).2.count Event.rollbackWarn =
        (if env.rollback.isOk then 0 else 1) ∧
      (run_update cmds env cfg).2.count Event.reboot = 0 ∧
      (run_update cmds env cfg).2.count (Event.graceSleep 30) = 0 ∧
      (run_update cmds env cfg).2.count Event.probe = 0 ∧
      (run_update cmds env cfg).2.count Event.appUpgrade = 0 ∧
      (run_update cmds env cfg).2.count Event.collectAfterApp = 0 ∧
      (run_update cmds env cfg).2.count Event.cleanup = 0 := by
  intro cmds env cfg rb err hrb hos
  rcases hrl : env.rollback with e | o <;>
    simp [run_update, hos, hrb, hrl, Except.isOk, Except.toBool, List.count_cons,
      List.count_nil, List.count_append]

/-- Witness for `run_update_os_update_failure_rollback` at a concrete failing run. -/
theorem run_update_os_update_failure_rollback_witness :
    (run_update { cmdsDefault with rollbackOverride := some "apt-mark-rollback" }
        { envAllOk with osUpdate := Except.error "exit status 100" } cfgForum).1 =
      Except.error (UpdateError.osUpdateFailed "forum.example.com" "exit status 100") ∧
    (run_update { cmdsDefault with rollbackOverride := some "apt-mark-rollback" }
        { envAllOk with osUpdate := Except.error "exit status 100" } cfgForum).2.count
      Event.rollback = 1 :=
  have h := run_update_os_update_failure_rollback
    { cmdsDefault with rollbackOverride := some "apt-mark-rollback" }
    { envAllOk with osUpdate := Except.error "exit status 100" } cfgForum
    "apt-mark-rollback" "exit status 100" rfl rfl
  ⟨h.1, h.2.1⟩

/-- C1, counterexample: the `run_update` in `main.rs` (the copy the binary actually
dispatches to) SWALLOWS a failing OS update: with a rollback command configured and
the OS-update command failing, it performs zero rollback invocations, surfaces no
error, continues to the app-upgrade step, and returns an Outcome. -/
theorem main_run_update_swallows_os_update_failure :
    (main_run_update { cmdsDefault with rollbackOverride := some "apt-mark-rollback" }
        { envAllOk with osUpdate := Except.error "exit status 100" } cfgForum).1.isOk =
      true ∧
    (main_run_update { cmdsDefault with rollbackOverride := some "apt-mark-rollback" }
        { envAllOk with osUpdate := Except.error "exit status 100" } cfgForum).2.count
      Event.rollback = 0 ∧
    Event.appUpgrade ∈
      (main_run_update { cmdsDefault with rollbackOverride := some "apt-mark-rollback" }
        { envAllOk with osUpdate := Except.error "exit status 100" } cfgForum).2 ∧
    os_update_rollback_cmd
        { cmdsDefault with rollbackOverride := some "apt-mark-rollback" } =
      some "apt-mark-rollback" := by
  refine ⟨rfl, rfl, ?_, rfl⟩
  decide

/-- C3: when the OS update succeeded but the reboot command fails, the Sequencer in
`commands/update.rs` performs no grace sleep and no probe (AwaitOnline is not
entered), proceeds directly to the app-upgrade step, any Outcome it returns has
`server_rebooted = false`, the run never aborts with the host-unreachable error, and
the run completes iff the app upgrade and cleanup succeed — reboot failure is never
fatal. -/
theorem run_update_reboot_failure_not_fatal :
    ∀ (cmds : UpdateCmds) (env : SshEnv) (cfg : DiscourseCfg) (s e : String),
      env.osUpdate = Except.ok s → env.reboot = Except.error e →
      (run_update cmds env cfg).2.count (Event.graceSleep 30) = 0 ∧
      (run_update cmds env cfg).2.count Event.probe = 0 ∧
      (run_update cmds env cfg).2.count (Event.probeSleep 30) = 0 ∧
      (run_update cmds env cfg).2.count Event.appUpgrade = 1 ∧
      (∀ m, (run_update cmds env cfg).1 = Except.ok m → m.server_rebooted = false) ∧
      (run_update cmds env cfg).1 ≠ Except.error UpdateError.hostUnreachableAfterReboot ∧
      (run_update cmds env cfg).1.isOk = (env.appUpgrade.isOk && env.cleanup.isOk) := by
  intro cmds env cfg s e hos hrbt
  have htail := run_update_tail_events env (cfg.ssh_host.getD cfg.name)
    (match env.fetchVersionBefore with
      | Except.ok v => v
      | Except.error _ => none)
    (get_os_version env.osVersionPrimaryBefore env.osVersionFallbackBefore) false
  have hok : ∀ m, (run_update_tail env (cfg.ssh_host.getD cfg.name)
      (match env.fetchVersionBefore with
        | Except.ok v => v
        | Except.error _ => none)
      (get_os_version env.osVersionPrimaryBefore env.osVersionFallbackBefore) false).1 =
        Except.ok m → m.server_rebooted = false := by
    intro m hm
    exact (run_update_tail_ok _ _ _ _ _ _ hm).2.1
  have hnu := run_update_tail_not_unreachable env (cfg.ssh_host.getD cfg.name)
    (match env.fetchVersionBefore with
      | Except.ok v => v
      | Except.error _ => none)
    (get_os_version env.osVersionPrimaryBefore env.osVersionFallbackBefore) false
  have hio := run_update_tail_isOk env (cfg.ssh_host.getD cfg.name)
    (match env.fetchVersionBefore with
      | Except.ok v => v
      | Except.error _ => none)
    (get_os_version env.osVersionPrimaryBefore env.osVersionFallbackBefore) false
  rcases htail with ht | ht <;>
    (simp only [run_update, hos, hrbt]
     exact ⟨by rw [ht]; simp +decide [List.count_append, List.count_cons, List.count_nil],
       by rw [ht]; simp +decide [List.count_append, List.count_cons, List.count_nil],
       by rw [ht]; simp +decide [List.count_append, List.count_cons, List.count_nil],
       by rw [ht]; simp +decide [List.count_append, List.count_cons, List.count_nil],
       hok, hnu, hio⟩)

/-- Witness for `run_update_reboot_failure_not_fatal` at a concrete run with a failing
reboot command. -/
theorem run_update_reboot_failure_not_fatal_witness :
    (run_update cmdsDefault { envAllOk with reboot := Except.error "reboot refused" }
        cfgForum).2.count Event.probe = 0 ∧
    (run_update cmdsDefault { envAllOk with reboot := Except.error "reboot refused" }
        cfgForum).2.count Event.appUpgrade = 1 :=
  have h := run_update_reboot_failure_not_fatal cmdsDefault
    { envAllOk with reboot := Except.error "reboot refused" } cfgForum
    "OS packages updated\n" "reboot refused" rfl rfl
  ⟨h.2.1, h.2.2.2.1⟩

/-! ### The AwaitOnline retry loop -/

theorem awaitOnlineGo_mem (probes : Nat → Bool) :
    ∀ (r a : Nat) (e : Event), e ∈ (awaitOnlineGo probes r a).2.2 →
      e = Event.probe ∨ e = Event.probeSleep 30 := by
  intro r
  induction r with
  | zero =>
    intro a e he
    simp [awaitOnlineGo] at he
  | succ r ih =>
    intro a e he
    by_cases hp : probes a
    · simp [awaitOnlineGo, hp] at he
      exact Or.inl he
    · by_cases hr : 0 < r
      · simp [awaitOnlineGo, hp, hr, List.mem_cons] at he
        rcases he with rfl | rfl | he2
        · exact Or.inl rfl
        · exact Or.inr rfl
        · exact ih (a + 1) e he2
      · simp [awaitOnlineGo, hp, hr] at he
        exact Or.inl he

theorem awaitOnlineGo_all_fail (probes : Nat → Bool) :
    ∀ (r a : Nat), 0 < r → (∀ i, a ≤ i → i < a + r → probes i = false) →
      (awaitOnlineGo probes r a).1 = a + r ∧
      (awaitOnlineGo probes r a).2.1 = false ∧
      (awaitOnlineGo probes r a).2.2.count Event.probe = r ∧
      (awaitOnlineGo probes r a).2.2.count (Event.probeSleep 30) = r - 1 := by
  intro r
  induction r with
  | zero =>
    intro a h0 _
    exact absurd h0 (by omega)
  | succ r ih =>
    intro a h0 hfail
    have hpa : probes a = false := hfail a (Nat.le_refl a) (by omega)
    by_cases hr : 0 < r
    · have hrec := ih (a + 1) hr (fun i h1 h2 => hfail i (by omega) (by omega))
      have hstep : awaitOnlineGo probes (r + 1) a =
          ((awaitOnlineGo probes r (a + 1)).1, (awaitOnlineGo probes r (a + 1)).2.1,
            Event.probe :: Event.probeSleep 30 :: (awaitOnlineGo probes r (a + 1)).2.2) := by
        simp [awaitOnlineGo, hpa, hr]
      rw [hstep]
      refine ⟨by rw [hrec.1]; omega, hrec.2.1, ?_, ?_⟩
      · simp +decide [List.count_cons, hrec.2.2.1]
      · simp +decide [List.count_cons, hrec.2.2.2]
        omega
    · have hr0 : r = 0 := by omega
      subst hr0
      simp +decide [awaitOnlineGo, hpa, List.count_cons, List.count_nil]

theorem awaitOnlineGo_first_success (probes : Nat → Bool) :
    ∀ (r a k : Nat), a ≤ k → k < a + r → probes k = true →
      (∀ i, a ≤ i → i < k → probes i = false) →
      (awaitOnlineGo probes r a).1 = k ∧
      (awaitOnlineGo probes r a).2.1 = true ∧
      (awaitOnlineGo probes r a).2.2.count Event.probe = k - a + 1 ∧
      (awaitOnlineGo probes r a).2.2.count (Event.probeSleep 30) = k - a := by
  intro r
  induction r with
  | zero =>
    intro a k h1 h2 _ _
    omega
  | succ r ih =>
    intro a k h1 h2 hk hfail
    by_cases hak : a = k
    · subst hak
      simp +decide [awaitOnlineGo, hk, List.count_cons, List.count_nil]
    · have halt : a < k := by omega
      have hpa : probes a = false := hfail a (Nat.le_refl a) halt
      have hr : 0 < r := by omega
      have hrec := ih (a + 1) k (by omega) (by omega) hk
        (fun i hi1 hi2 => hfail i (by omega) hi2)
      have hstep : awaitOnlineGo probes (r + 1) a =
          ((awaitOnlineGo probes r (a + 1)).1, (awaitOnlineGo probes r (a + 1)).2.1,
            Event.probe :: Event.probeSleep 30 :: (awaitOnlineGo probes r (a + 1)).2.2) := by
        simp [awaitOnlineGo, hpa, hr]
      rw [hstep]
      refine ⟨hrec.1, hrec.2.1, ?_, ?_⟩
      · simp +decide [List.count_cons, hrec.2.2.1]
        omega
      · simp +decide [List.count_cons, hrec.2.2.2]
        omega

/-- The loop aborts exactly when the first 12 probes all fail. -/
theorem awaitOnline_abort_iff (probes : Nat → Bool) :
    12 ≤ (awaitOnlineGo probes 12 0).1 ↔ ∀ i, i < 12 → probes i = false := by
  constructor
  · intro h
    by_contra hex
    push_neg at hex
    obtain ⟨i, hi, hpi⟩ := hex
    have hpi' : probes i = true := by
      cases hb : probes i
      · exact absurd hb hpi
      · rfl
    have hexE : ∃ j, probes j = true := ⟨i, hpi'⟩
    have hkp : probes (Nat.find hexE) = true := Nat.find_spec hexE
    have hkle : Nat.find hexE ≤ i := Nat.find_min' hexE hpi'
    have hmin : ∀ j, j < Nat.find hexE → probes j = false := by
      intro j hj
      have hnj := Nat.find_min hexE hj
      cases hb : probes j
      · rfl
      · exact absurd hb hnj
    have hs := awaitOnlineGo_first_success probes 12 0 (Nat.find hexE) (by omega)
      (by omega) hkp (fun j _ hj => hmin j hj)
    rw [hs.1] at h
    omega
  · intro hall
    have hf := awaitOnlineGo_all_fail probes 12 0 (by omega)
      (fun i _ h2 => hall i (by omega))
    rw [hf.1]

theorem awaitOnlineGo_count_grace (probes : Nat → Bool) (r a : Nat) :
    (awaitOnlineGo probes r a).2.2.count (Event.graceSleep 30) = 0 := by
  rw [List.count_eq_zero]
  intro hmem
  rcases awaitOnlineGo_mem probes r a _ hmem with h | h <;> simp at h

/-- C2: whenever the run enters AwaitOnline (OS update and reboot succeeded, and the
OS-update override is not the test-bypass string), the Sequencer sleeps the 30s grace
period exactly once and then probes at 30s intervals; it aborts with the
host-unreachable-after-reboot error exactly when the first 12 probes all fail, after
exactly 12 probes and 11 inter-probe sleeps; and when probe `k < 12` is the first to
succeed the wait exits after exactly `k + 1` probes and the error is never raised. -/
theorem run_update_await_online_budget :
    ∀ (cmds : UpdateCmds) (env : SshEnv) (cfg : DiscourseCfg) (s r0 : String),
      env.osUpdate = Except.ok s → env.reboot = Except.ok r0 →
      awaitBypass cmds = false →
      (run_update cmds env cfg).2.count (Event.graceSleep 30) = 1 ∧
      ((run_update cmds env cfg).1 =
          Except.error UpdateError.hostUnreachableAfterReboot ↔
        ∀ i, i < 12 → env.probes i = false) ∧
      ((∀ i, i < 12 → env.probes i = false) →
        (run_update cmds env cfg).2.count Event.probe = 12 ∧
        (run_update cmds env cfg).2.count (Event.probeSleep 30) = 11) ∧
      (∀ k, k < 12 → env.probes k = true → (∀ i, i < k → env.probes i = false) →
        (run_update cmds env cfg).2.count Event.probe = k + 1 ∧
        (run_update cmds env cfg).1 ≠
          Except.error UpdateError.hostUnreachableAfterReboot) := by
  intro cmds env cfg s r0 hos hrbt hbp
  by_cases haw : 12 ≤ (awaitOnlineGo env.probes 12 0).1
  · have hall := (awaitOnline_abort_iff env.probes).mp haw
    have hf := awaitOnlineGo_all_fail env.probes 12 0 (by omega)
      (fun i _ h2 => hall i (by omega))
    simp only [run_update, hos, hrbt, hbp, Bool.false_eq_true, if_false, haw, if_pos]
    refine ⟨?_, ?_, ?_, ?_⟩
    · simp +decide [List.count_append, List.count_cons, List.count_nil,
        awaitOnlineGo_count_grace]
    · exact iff_of_true trivial hall
    · intro _
      constructor
      · simp +decide [List.count_append, List.count_cons, List.count_nil, hf.2.2.1]
      · simp +decide [List.count_append, List.count_cons, List.count_nil, hf.2.2.2]
    · intro k hk hpk _
      rw [hall k hk] at hpk
      cases hpk
  · have hnall : ¬ ∀ i, i < 12 → env.probes i = false := by
      intro hall
      exact haw ((awaitOnline_abort_iff env.probes).mpr hall)
    have htail := run_update_tail_events env (cfg.ssh_host.getD cfg.name)
      (match env.fetchVersionBefore with
        | Except.ok v => v
        | Except.error _ => none)
      (get_os_version env.osVersionPrimaryBefore env.osVersionFallbackBefore) true
    have hnu := run_update_tail_not_unreachable env (cfg.ssh_host.getD cfg.name)
      (match env.fetchVersionBefore with
        | Except.ok v => v
        | Except.error _ => none)
      (get_os_version env.osVersionPrimaryBefore env.osVersionFallbackBefore) true
    simp only [run_update, hos, hrbt, hbp, Bool.false_eq_true, if_false, haw, if_neg,
      not_false_iff]
    refine ⟨?_, ?_, ?_, ?_⟩
    · rcases htail with ht | ht <;>
        simp +decide [ht, List.count_append, List.count_cons, List.count_nil,
          awaitOnlineGo_count_grace]
    · exact iff_of_false hnu hnall
    · intro hall
      exact absurd hall hnall
    · intro k hk hpk hmin
      have hs := awaitOnlineGo_first_success env.probes 12 0 k (by omega) (by omega)
        hpk (fun i _ hi => hmin i hi)
      constructor
      · rcases htail with ht | ht <;>
          simp +decide [ht, List.count_append, List.count_cons, List.count_nil,
            hs.2.2.1]
      · exact hnu

/-- Witness for `run_update_await_online_budget`: every probe fails, so the run aborts
with the host-unreachable error after exactly 12 probes. -/
theorem run_update_await_online_budget_witness :
    (run_update cmdsDefault { envAllOk with probes := fun _ => false } cfgForum).1 =
      Except.error UpdateError.hostUnreachableAfterReboot ∧
    (run_update cmdsDefault { envAllOk with probes := fun _ => false }
        cfgForum).2.count Event.probe = 12 :=
  have h := run_update_await_online_budget cmdsDefault
    { envAllOk with probes := fun _ => false } cfgForum "OS packages updated\n" ""
    rfl rfl rfl
  ⟨h.2.1.mpr (fun i _ => rfl), (h.2.2.1 (fun i _ => rfl)).1⟩

/-! ### CollectAfter (C4) -/

theorem awaitOnlineGo_count_collectAfterOs (probes : Nat → Bool) (r a : Nat) :
    (awaitOnlineGo probes r a).2.2.count Event.collectAfterOs = 0 := by
  rw [List.count_eq_zero]
  intro hmem
  rcases awaitOnlineGo_mem probes r a _ hmem with h | h <;> simp at h

theorem main_run_update_tail_ok (env : SshEnv) (target : String)
    (bv bo : Option String) (osu sr : Bool) (m : UpdateMetadata)
    (h : (main_run_update_tail env target bv bo osu sr).1 = Except.ok m) :
    m.after_os_version =
      get_os_version env.osVersionPrimaryAfter env.osVersionFallbackAfter ∧
    m.after_version = (match env.fetchVersionAfter with
      | Except.ok v => v
      | Except.error _ => none) ∧
    m.os_updated = osu ∧ m.server_rebooted = sr := by
  rcases happ : env.appUpgrade with e | o
  · simp [main_run_update_tail, happ] at h
  · rcases hcl : env.cleanup with e2 | o2
    · simp [main_run_update_tail, happ, hcl] at h
    · simp only [main_run_update_tail, happ, hcl, Except.ok.injEq] at h
      subst h
      exact ⟨rfl, rfl, rfl, rfl⟩

/-- C4 (amended): after a successful application upgrade the CollectAfter step of the
Sequencer in `commands/update.rs` re-fetches only the app version: `after_version`
holds the post-upgrade query result (absent exactly when the query failed) but
`after_os_version` is always absent — line 224 hard-codes `None` and no
OS-version query is performed after the upgrade.  Only the superseded `main.rs`
Sequencer re-fetches the OS version into `after_os_version`. -/
theorem run_update_collect_after :
    (∀ (cmds : UpdateCmds) (env : SshEnv) (cfg : DiscourseCfg) (m : UpdateMetadata)
      (evs : List Event), run_update cmds env cfg = (Except.ok m, evs) →
      m.after_version = (match env.fetchVersionAfter with
        | Except.ok v => v
        | Except.error _ => none) ∧
      m.after_os_version = none ∧
      evs.count Event.collectAfterOs = 0) ∧
    (∀ (cmds : UpdateCmds) (env : SshEnv) (cfg : DiscourseCfg) (m : UpdateMetadata)
      (evs : List Event), main_run_update cmds env cfg = (Except.ok m, evs) →
      m.after_os_version =
        get_os_version env.osVersionPrimaryAfter env.osVersionFallbackAfter ∧
      m.after_version = (match env.fetchVersionAfter with
        | Except.ok v => v
        | Except.error _ => none)) := by
  constructor
  · intro cmds env cfg m evs h
    rcases hos : env.osUpdate with e | o
    · rcases hrb : os_update_rollback_cmd cmds with _ | rb
      · simp [run_update, hos, hrb] at h
      · rcases hrl : env.rollback with e2 | o2 <;> simp [run_update, hos, hrb, hrl] at h
    · rcases hrbt : env.reboot with e2 | o2
      · simp only [run_update, hos, hrbt, Prod.mk.injEq] at h
        have hf := run_update_tail_ok _ _ _ _ _ _ h.1
        refine ⟨hf.2.2.2.2.2.1, hf.2.2.1, ?_⟩
        rw [← h.2]
        rcases run_update_tail_events env (cfg.ssh_host.getD cfg.name)
            (match env.fetchVersionBefore with
              | Except.ok v => v
              | Except.error _ => none)
            (get_os_version env.osVersionPrimaryBefore env.osVersionFallbackBefore)
            false with ht | ht <;>
          simp +decide [ht, List.count_append, List.count_cons, List.count_nil]
      · by_cases hbp : awaitBypass cmds
        · simp only [run_update, hos, hrbt, hbp, if_pos, Prod.mk.injEq] at h
          have hf := run_update_tail_ok _ _ _ _ _ _ h.1
          refine ⟨hf.2.2.2.2.2.1, hf.2.2.1, ?_⟩
          rw [← h.2]
          rcases run_update_tail_events env (cfg.ssh_host.getD cfg.name)
              (match env.fetchVersionBefore with
                | Except.ok v => v
                | Except.error _ => none)
              (get_os_version env.osVersionPrimaryBefore env.osVersionFallbackBefore)
              true with ht | ht <;>
            simp +decide [ht, List.count_append, List.count_cons, List.count_nil]
        · by_cases haw : 12 ≤ (awaitOnlineGo env.probes 12 0).1
          · simp [run_update, hos, hrbt, hbp, haw] at h
          · simp only [run_update, hos, hrbt, hbp, Bool.false_eq_true, if_false, haw,
              if_neg, not_false_iff, Prod.mk.injEq] at h
            have hf := run_update_tail_ok _ _ _ _ _ _ h.1
            refine ⟨hf.2.2.2.2.2.1, hf.2.2.1, ?_⟩
            rw [← h.2]
            rcases run_update_tail_events env (cfg.ssh_host.getD cfg.name)
                (match env.fetchVersionBefore with
                  | Except.ok v => v
                  | Except.error _ => none)
                (get_os_version env.osVersionPrimaryBefore env.osVersionFallbackBefore)
                true with ht | ht <;>
              simp +decide [ht, List.count_append, List.count_cons, List.count_nil,
                awaitOnlineGo_count_collectAfterOs]
  · intro cmds env cfg m evs h
    rcases hos : env.osUpdate with e | o
    · simp only [main_run_update, hos, Prod.mk.injEq] at h
      have hf := main_run_update_tail_ok _ _ _ _ _ _ _ h.1
      exact ⟨hf.1, hf.2.1⟩
    · rcases hrbt : env.reboot with e2 | o2
      · simp only [main_run_update, hos, hrbt, Prod.mk.injEq] at h
        have hf := main_run_update_tail_ok _ _ _ _ _ _ _ h.1
        exact ⟨hf.1, hf.2.1⟩
      · by_cases hbp : awaitBypass cmds
        · simp only [main_run_update, hos, hrbt, hbp, if_pos, Prod.mk.injEq] at h
          have hf := main_run_update_tail_ok _ _ _ _ _ _ _ h.1
          exact ⟨hf.1, hf.2.1⟩
        · by_cases haw : 12 ≤ (awaitOnlineGo env.probes 12 0).1
          · simp [main_run_update, hos, hrbt, hbp, haw] at h
          · simp only [main_run_update, hos, hrbt, hbp, Bool.false_eq_true, if_false,
              haw, if_neg, not_false_iff, Prod.mk.injEq] at h
            have hf := main_run_update_tail_ok _ _ _ _ _ _ _ h.1
            exact ⟨hf.1, hf.2.1⟩

/-- Witness for `run_update_collect_after` on concrete fully-succeeding runs of both
Sequencer copies. -/
theorem run_update_collect_after_witness :
    metaAllOk.after_version = some "3.2.1" ∧ metaAllOk.after_os_version = none ∧
    ({ metaAllOk with after_os_version := some "Ubuntu 22.04.4 LTS"
       } : UpdateMetadata).after_os_version = some "Ubuntu 22.04.4 LTS" :=
  have h1 := run_update_collect_after.1 cmdsDefault envAllOk cfgForum metaAllOk
    [Event.collectBeforeApp, Event.collectBeforeOs, Event.osUpdate, Event.reboot,
     Event.graceSleep 30, Event.probe, Event.appUpgrade, Event.collectAfterApp,
     Event.cleanup] rfl
  have h2 := run_update_collect_after.2 cmdsDefault envAllOk cfgForum
    { metaAllOk with after_os_version := some "Ubuntu 22.04.4 LTS" }
    [Event.collectBeforeApp, Event.collectBeforeOs, Event.osUpdate, Event.reboot,
     Event.graceSleep 30, Event.probe, Event.appUpgrade, Event.collectAfterApp,
     Event.cleanup, Event.collectAfterOs] rfl
  ⟨h1.1, h1.2.1, h2.1⟩

/-- C4, counterexample: a fully succeeding run in which the post-upgrade OS-version
query would succeed (`osVersionPrimaryAfter` is `Ok`), yet the Outcome's
`after_os_version` is absent and no after-OS-version collection is performed — the
field is not "absent only when the corresponding query failed". -/
theorem run_update_after_os_version_dropped :
    (run_update cmdsDefault envAllOk cfgForum).1 = Except.ok metaAllOk ∧
    metaAllOk.after_os_version = none ∧
    envAllOk.osVersionPrimaryAfter = Except.ok "Ubuntu 22.04.4 LTS\n" ∧
    (run_update cmdsDefault envAllOk cfgForum).2.count Event.collectAfterOs = 0 :=
  ⟨rfl, rfl, rfl, rfl⟩

/-! ### Fleet Runner (C5) and the audit log (C6) -/

/-- C5 (amended): `update_all` with `concurrent = true` never runs the bounded-parallel
pool: it fails immediately with the `--concurrent is disabled` error, attempts no
host, and this is independent of the host list, the per-host results, the maximum
concurrency and the changelog flag.  (The thread-pool code below the guard is
unreachable.) -/
theorem update_all_concurrent_disabled :
    ∀ (hosts : List DiscourseCfg)
      (runHost : DiscourseCfg → Except UpdateError UpdateMetadata)
      (postHost : DiscourseCfg → UpdateMetadata → Except UpdateError Unit)
      (maxThreads : Option Nat) (postChangelog : Bool),
      update_all hosts runHost postHost true maxThreads postChangelog =
        (Except.error FleetError.concurrentDisabled, []) := by
  intro hosts runHost postHost maxThreads postChangelog
  rfl

/-- C5, counterexample: with two hosts whose tasks would all succeed, selecting the
bounded-parallel policy still fails overall and launches nothing — contradicting
"the overall run fails iff at least one host's task failed" and the claimed task
launching. -/
theorem update_all_concurrent_rejected_despite_success :
    update_all [cfgForum, { name := "beta", ssh_host := none }]
        (fun _ => Except.ok metaAllOk) (fun _ _ => Except.ok ()) true (some 2) false =
      (Except.error FleetError.concurrentDisabled, []) ∧
    (update_all [cfgForum, { name := "beta", ssh_host := none }]
        (fun _ => Except.ok metaAllOk) (fun _ _ => Except.ok ()) true (some 2)
        false).1.isOk = false :=
  ⟨rfl, rfl⟩

/-- C6, counterexample: the audit log is opened with `create(true).append(true)` only:
opening at a path holding a symbolic link succeeds and writes through the link (no
refusal, no symlink check), and `create_new` (exclusive creation) is not set, so an
existing log from a concurrent run is appended to rather than refused. -/
theorem update_all_log_symlink_not_refused :
    openLogFile update_all_log_open_flags { present := true, isSymlink := true } =
      OpenOutcome.opened true ∧
    update_all_log_open_flags.createNew = false ∧
    openLogFile update_all_log_open_flags { present := true, isSymlink := false } =
      OpenOutcome.opened false :=
  ⟨rfl, rfl, rfl⟩

/-- C6 (amended): before the first append, `main.rs`'s sequential `update_all` opens
the date-named log with create+append semantics: the open never refuses — whatever the
state of the path — and resolves through a symbolic link whenever one is present. -/
theorem update_all_log_open_spec :
    ∀ st : LogPathState,
      openLogFile update_all_log_open_flags st =
        OpenOutcome.opened (st.present && st.isSymlink) := by
  intro st
  rfl

end Dsc
